import Mathlib

/-!
Verification development for a small interactive shell (`src/app/main.py`).
The Python source is shallowly embedded: each Python function becomes a Lean
definition of the same name; process-global mutable state (`sys.stdout`,
`readline` history, the current working directory) becomes an explicit
`Shell` record threaded through the handlers; the filesystem and PATH are an
explicit `Fs` record; raised Python exceptions become an `Option Exc` field
of the handler result. Strings are ASCII-modelled.
-/

/-- The apostrophe character (single quote). -/
def squoteChar : Char := Char.ofNat 39

/-- The double-quote character. -/
def dquoteChar : Char := Char.ofNat 34

/-- The backslash character. -/
def backslashChar : Char := Char.ofNat 92

/-- The hash character, shlex's default comment starter. -/
def hashChar : Char := Char.ofNat 35

/-- Python `str.strip` whitespace: space, tab, newline, carriage return,
vertical tab, form feed. -/
def pyWsChar (c : Char) : Bool :=
  c = ' ' || c = '\t' || c = '\n' || c = '\r' || c = Char.ofNat 11 || c = Char.ofNat 12

/-- Python `str.strip()`: remove leading and trailing whitespace. -/
def pyStrip (s : String) : String :=
  String.mk (((s.data.dropWhile pyWsChar).reverse.dropWhile pyWsChar).reverse)

/-- Accumulating loop for `pySplitWs`: `cur` holds the current field. -/
def splitWsGo : List Char → List Char → List String
  | [], cur => if cur.isEmpty then [] else [String.mk cur]
  | c :: rest, cur =>
      if pyWsChar c then
        if cur.isEmpty then splitWsGo rest [] else String.mk cur :: splitWsGo rest []
      else splitWsGo rest (cur ++ [c])

/-- Python `str.split()` with no separator: split on whitespace runs,
producing no empty fields. -/
def pySplitWs (s : String) : List String := splitWsGo s.data []

/-- ASCII decimal digit test (`'0'` through `'9'`). -/
def isAsciiDigit (c : Char) : Bool := 48 ≤ c.toNat && c.toNat ≤ 57

/-- Python `str.isdigit()` restricted to ASCII: nonempty and all digits. -/
def pyIsdigitStr (s : String) : Bool := !s.data.isEmpty && s.data.all isAsciiDigit

/-- Numeric value of one ASCII digit character. -/
def digitVal (c : Char) : Nat := c.toNat - 48

/-- Value of a decimal digit string, as computed by Python `int` on a
string of ASCII digits. -/
def natOfDigits (l : List Char) : Nat := l.foldl (fun a c => 10 * a + digitVal c) 0

/-- Python `int(s)` for a whitespace-padded ASCII digit string. -/
def pyInt (s : String) : Nat := natOfDigits (pyStrip s).data

/-- The ASCII character for a decimal digit value. -/
def decDigit (n : Nat) : Char := Char.ofNat (48 + n)

/-- Fueled big-endian decimal numeral of a natural number. -/
def natReprAux : Nat → Nat → List Char
  | 0, _ => []
  | f + 1, n => if n < 10 then [decDigit n] else natReprAux f (n / 10) ++ [decDigit (n % 10)]

/-- The standard decimal numeral of a natural number (e.g. `natRepr 42 = "42"`). -/
def natRepr (n : Nat) : String := String.mk (natReprAux (n + 1) n)

/-- States of the `shlex` lexer as configured by `parse_input`
(posix mode, `whitespace_split = True`): between tokens, inside a word,
inside single/double quotes, after a backslash (outside quotes or inside
double quotes), and skipping a `#` comment. -/
inductive LexState
  | ws | word | squote | dquote | escWord | escDquote | comment
deriving DecidableEq

/-- One raised Python exception, as relevant to this program. -/
inductive Exc
  | indexError
  | osError
  | valueError (msg : String)
  | systemExit (code : Nat)
deriving DecidableEq, Repr

/-- The `shlex` token loop of `parse_input` (posix mode,
`whitespace_split = True`, commenters `#`, quotes `'` and `"`,
escape `\`, escaped quotes `"`): processes the remaining characters in the
given state, carrying the `quoted` flag of the current token, the current
token's characters, and the tokens already emitted. Unterminated quotes and
a trailing escape raise `ValueError` exactly as `shlex` does. -/
def shlexRun : List Char → LexState → Bool → List Char → List String → Except Exc (List String)
  | [], .ws, _, _, acc => .ok acc
  | [], .word, quoted, tok, acc =>
      if tok ≠ [] ∨ quoted = true then .ok (acc ++ [String.mk tok]) else .ok acc
  | [], .squote, _, _, _ => .error (.valueError "No closing quotation")
  | [], .dquote, _, _, _ => .error (.valueError "No closing quotation")
  | [], .escWord, _, _, _ => .error (.valueError "No escaped character")
  | [], .escDquote, _, _, _ => .error (.valueError "No escaped character")
  | [], .comment, _, _, acc => .ok acc
  | c :: rest, .ws, _, _, acc =>
      if pyWsChar c then shlexRun rest .ws false [] acc
      else if c = hashChar then shlexRun rest .comment false [] acc
      else if c = backslashChar then shlexRun rest .escWord false [] acc
      else if c = squoteChar then shlexRun rest .squote true [] acc
      else if c = dquoteChar then shlexRun rest .dquote true [] acc
      else shlexRun rest .word false [c] acc
  | c :: rest, .word, quoted, tok, acc =>
      if pyWsChar c then
        if tok ≠ [] ∨ quoted = true then shlexRun rest .ws false [] (acc ++ [String.mk tok])
        else shlexRun rest .ws false [] acc
      else if c = hashChar then
        if tok ≠ [] ∨ quoted = true then shlexRun rest .comment false [] (acc ++ [String.mk tok])
        else shlexRun rest .comment false [] acc
      else if c = squoteChar then shlexRun rest .squote true tok acc
      else if c = dquoteChar then shlexRun rest .dquote true tok acc
      else if c = backslashChar then shlexRun rest .escWord quoted tok acc
      else shlexRun rest .word quoted (tok ++ [c]) acc
  | c :: rest, .squote, quoted, tok, acc =>
      if c = squoteChar then shlexRun rest .word quoted tok acc
      else shlexRun rest .squote quoted (tok ++ [c]) acc
  | c :: rest, .dquote, quoted, tok, acc =>
      if c = dquoteChar then shlexRun rest .word quoted tok acc
      else if c = backslashChar then shlexRun rest .escDquote quoted tok acc
      else shlexRun rest .dquote quoted (tok ++ [c]) acc
  | c :: rest, .escWord, quoted, tok, acc => shlexRun rest .word quoted (tok ++ [c]) acc
  | c :: rest, .escDquote, quoted, tok, acc =>
      if c ≠ backslashChar ∧ c ≠ dquoteChar then
        shlexRun rest .dquote quoted (tok ++ [backslashChar, c]) acc
      else shlexRun rest .dquote quoted (tok ++ [c]) acc
  | c :: rest, .comment, _, _, acc =>
      if c = '\n' then shlexRun rest .ws false [] acc
      else shlexRun rest .comment false [] acc

/-- `parse_input` (main.py lines 98-105): tokenize a command line with
`shlex` in posix mode with `whitespace_split = True`. -/
def parse_input (command : String) : Except Exc (List String) :=
  shlexRun command.data .ws false [] []

example : parse_input "" = .ok [] := by rfl
example : parse_input "   " = .ok [] := by rfl
example : parse_input "echo hi > out.txt" = .ok ["echo", "hi", ">", "out.txt"] := by rfl
example : parse_input "echo a #b" = .ok ["echo", "a"] := by rfl
example : parse_input ("echo " ++ String.mk [squoteChar, '>', squoteChar] ++ " f")
    = .ok ["echo", ">", "f"] := by rfl
example : parse_input (String.mk [squoteChar, 'a', ' ', 'b', squoteChar]) = .ok ["a b"] := by rfl
example : parse_input "a#b" = .ok ["a"] := by rfl
example : parse_input "echo \\ x" = .ok ["echo", " x"] := by rfl
example : parse_input (String.mk [squoteChar, squoteChar] ++ " foo") = .ok ["", "foo"] := by rfl
example : parse_input (String.mk ['a', dquoteChar, 'b', ' ', 'c', dquoteChar, 'd'])
    = .ok ["ab cd"] := by rfl
example : parse_input (String.mk [dquoteChar, 'a', backslashChar, dquoteChar, 'b', dquoteChar])
    = .ok [String.mk ['a', dquoteChar, 'b']] := by rfl
example : parse_input (String.mk [dquoteChar, 'a', backslashChar, 'n', 'b', dquoteChar])
    = .ok [String.mk ['a', backslashChar, 'n', 'b']] := by rfl
example : parse_input (String.mk ['e', 'c', 'h', 'o', ' ', squoteChar, 'a'])
    = .error (.valueError "No closing quotation") := by rfl
example : parse_input (String.mk ['a', backslashChar])
    = .error (.valueError "No escaped character") := by rfl

/-- Result of `extract_redirections`: the residual command tokens, the
stdout target and mode, and the stderr target and mode (modes `"w"` for
truncate, `"a"` for append, defaulting to `"w"`). -/
structure Redir where
  command : List String
  stdout_target : Option String
  stdout_mode : String
  stderr_target : Option String
  stderr_mode : String
deriving DecidableEq, Repr

/-- The scanning loop of `extract_redirections` (main.py lines 114-135),
with the loop's mutable variables as accumulator arguments. Reading the
token after a redirection operator when none exists (`tokens[i+1]` out of
range) is Python's `IndexError`, modelled as `none`. -/
def extractGo : List String → List String → Option String → String → Option String → String →
    Option Redir
  | [], command, so, sm, se, sem => some ⟨command, so, sm, se, sem⟩
  | t :: rest, command, so, sm, se, sem =>
    if t ∈ [">", "1>"] then
      match rest with
      | [] => none
      | tgt :: rest2 => extractGo rest2 command (some tgt) "w" se sem
    else if t = "2>" then
      match rest with
      | [] => none
      | tgt :: rest2 => extractGo rest2 command so sm (some tgt) "w"
    else if t ∈ [">>", "1>>"] then
      match rest with
      | [] => none
      | tgt :: rest2 => extractGo rest2 command (some tgt) "a" se sem
    else if t = "2>>" then
      match rest with
      | [] => none
      | tgt :: rest2 => extractGo rest2 command so sm (some tgt) "a"
    else extractGo rest (command ++ [t]) so sm se sem

/-- `extract_redirections` (main.py lines 107-137): split a token sequence
into residual command tokens and stdout/stderr redirection targets. -/
def extract_redirections (tokens : List String) : Option Redir :=
  extractGo tokens [] none "w" none "w"

example : extract_redirections ["echo", "hi", ">", "out.txt"]
    = some ⟨["echo", "hi"], some "out.txt", "w", none, "w"⟩ := by rfl
example : extract_redirections [">", "out.txt", "echo", "hi"]
    = some ⟨["echo", "hi"], some "out.txt", "w", none, "w"⟩ := by rfl
example : extract_redirections ["a", ">", "x", "b", "2>>", "y", ">>", "z"]
    = some ⟨["a", "b"], some "z", "a", some "y", "a"⟩ := by rfl
example : extract_redirections ["echo", "hi", ">"] = none := by rfl

/-- Where `sys.stdout` / `sys.stderr` currently point: the console, or a
file opened for redirection. -/
inductive StdStream
  | console
  | toFile (path : String)
deriving DecidableEq, Repr

/-- The filesystem and environment, as consumed by the program:
the `PATH` directory list, directory/executable-file tests, which paths
fail to open for writing or appending (raising `OSError`), and file
contents as lines (`none` = the file does not exist). -/
structure Fs where
  path_dirs : List String
  isDir : String → Bool
  isExecFile : String → Bool
  openFails : String → Bool
  files : String → Option (List String)

/-- Replace the contents of one file (creating it if absent). -/
def Fs.setFile (fs : Fs) (path : String) (lines : List String) : Fs :=
  {fs with files := fun q => if q = path then some lines else fs.files q}

/-- The process-global mutable state of the interpreter: the working
directory, the home directory, the configured `HISTFILE` (if any), the
`readline` in-memory history with the module's two watermarks, and the
current `sys.stdout` / `sys.stderr` objects. -/
structure Shell where
  cwd : String
  home : String
  histfile : Option String
  history : List String
  last_appended_index : Nat
  initial_history_length : Nat
  sys_stdout : StdStream
  sys_stderr : StdStream
deriving DecidableEq

/-- Result of running a handler or `handle_command`: the updated global
state, the updated filesystem, the lines that reached the console, and the
exception that escaped (if any). -/
structure HRes where
  shell : Shell
  fs : Fs
  out : List String
  exc : Option Exc

/-- Python `print(line)`: write one line to the current `sys.stdout` —
the console, or the redirection file it was swapped for. -/
def pyPrint (st : Shell) (fs : Fs) (line : String) : Fs × List String :=
  match st.sys_stdout with
  | .console => (fs, [line])
  | .toFile p => (fs.setFile p ((fs.files p).getD [] ++ [line]), [])

/-- Print a list of lines in order through `pyPrint`. -/
def printLines (st : Shell) (fs : Fs) (lines : List String) : Fs × List String :=
  lines.foldl (fun acc line =>
    let r := pyPrint st acc.1 line
    (r.1, acc.2 ++ r.2)) (fs, [])

/-- Python `open(path, mode)` for mode `"w"` (truncate/create) or `"a"`
(append/create): raises `OSError` on an unopenable path, otherwise the file
exists afterwards, emptied when the mode is `"w"`. -/
def pyOpen (fs : Fs) (path mode : String) : Except Exc Fs :=
  if fs.openFails path then .error .osError
  else .ok (fs.setFile path (if mode = "w" then [] else (fs.files path).getD []))

/-- `write_to_history_file` (main.py lines 15-22): if `HISTFILE` is set,
append the last `total - initial_history_length` history entries to it
(`readline.append_history_file`); `OSError` on an unopenable path. -/
def write_to_history_file (st : Shell) (fs : Fs) : Except Exc Fs :=
  match st.histfile with
  | none => .ok fs
  | some histfile =>
    let total := st.history.length
    let new_lines := total - st.initial_history_length
    if new_lines > 0 then
      if fs.openFails histfile then .error .osError
      else .ok (fs.setFile histfile ((fs.files histfile).getD [] ++ st.history.drop (total - new_lines)))
    else .ok fs

/-- `exit_shell` (main.py lines 24-29): flush history to the history file,
then `sys.exit` with the numeric argument if `input.strip().isdigit()`,
else with status 0. -/
def exit_shell (input : String) (st : Shell) (fs : Fs) : HRes :=
  match write_to_history_file st fs with
  | .error e => ⟨st, fs, [], some e⟩
  | .ok fs1 =>
    if pyIsdigitStr (pyStrip input) then ⟨st, fs1, [], some (.systemExit (pyInt input))⟩
    else ⟨st, fs1, [], some (.systemExit 0)⟩

/-- `echo` (main.py lines 31-32): print the argument string. -/
def echo (input : String) (st : Shell) (fs : Fs) : HRes :=
  let r := pyPrint st fs input
  ⟨st, r.1, r.2, none⟩

/-- `get_cwd` (main.py lines 34-35): print the current working directory. -/
def get_cwd (_ : String) (st : Shell) (fs : Fs) : HRes :=
  let r := pyPrint st fs st.cwd
  ⟨st, r.1, r.2, none⟩

/-- `find_executable` (main.py lines 38-47): scan the `PATH` directories in
order, skip non-directories, and return the first directory whose entry
named `cmd` is an executable regular file. -/
def find_executable (fs : Fs) (cmd : String) : Option String :=
  fs.path_dirs.findSome? (fun directory =>
    if fs.isDir directory then
      let full_path := directory ++ "/" ++ cmd
      if fs.isExecFile full_path then some full_path else none
    else none)

/-- The keys of the `builtin_commands` registry as populated by
`_init_builtins` (main.py lines 232-240). -/
def builtin_names : List String := ["exit", "echo", "type", "pwd", "cd", "history"]

/-- `typeOf` (main.py lines 49-61): report builtin, executable path, or
not found, in that order of precedence. -/
def typeOf (input : String) (st : Shell) (fs : Fs) : HRes :=
  if builtin_names.contains input then
    let r := pyPrint st fs (input ++ " is a shell builtin")
    ⟨st, r.1, r.2, none⟩
  else
    match find_executable fs input with
    | some executable_path =>
      let r := pyPrint st fs (input ++ " is " ++ executable_path)
      ⟨st, r.1, r.2, none⟩
    | none =>
      let r := pyPrint st fs (input ++ ": not found")
      ⟨st, r.1, r.2, none⟩

/-- `change_directory` (main.py lines 63-69): expand `~` to the home
directory, then `os.chdir`; on `OSError` print a diagnostic and leave the
working directory unchanged. -/
def change_directory (input : String) (st : Shell) (fs : Fs) : HRes :=
  let input := if input = "~" then st.home else input
  if fs.isDir input then ⟨{st with cwd := input}, fs, [], none⟩
  else
    let r := pyPrint st fs ("cd: " ++ input ++ ": No such file or directory")
    ⟨st, r.1, r.2, none⟩

/-- The default display branch of `get_history` (main.py lines 168-175):
print the last `min(N, total)` entries, `N` defaulting to 100, each line
four spaces, the 1-based index, two spaces, and the entry. -/
def historyShow (args : List String) (st : Shell) (fs : Fs) : HRes :=
  let n : Nat :=
    match args with
    | [a] => if pyIsdigitStr a then pyInt a else 100
    | _ => 100
  let total := st.history.length
  let startindex := total - n
  let lines := (List.range (total - startindex)).map (fun k =>
    "    " ++ natRepr (startindex + k + 1) ++ "  " ++ ((st.history.get? (startindex + k)).getD ""))
  let r := printLines st fs lines
  ⟨st, r.1, r.2, none⟩

/-- The body of `get_history` (main.py lines 139-175) after
`args = input.strip().split()`: the `-r` / `-w` / `-a` file operations,
else the display branch. `readline.read_history_file` on a missing file is
the caught `FileNotFoundError`; `-w` overwrites the file with the whole
in-memory log; `-a` appends the entries with 1-based index in
`(last_appended_index, total]` and advances the watermark to `total`. -/
def get_history_args (args : List String) (st : Shell) (fs : Fs) : HRes :=
  match args with
  | [flag, file_path] =>
    if flag = "-r" then
      match fs.files file_path with
      | some lines => ⟨{st with history := st.history ++ lines}, fs, [], none⟩
      | none =>
        let r := pyPrint st fs ("history: " ++ file_path ++ ": No such file or directory")
        ⟨st, r.1, r.2, none⟩
    else if flag = "-w" then
      if fs.openFails file_path then ⟨st, fs, [], some .osError⟩
      else ⟨st, fs.setFile file_path st.history, [], none⟩
    else if flag = "-a" then
      if fs.openFails file_path then ⟨st, fs, [], some .osError⟩
      else
        let total := st.history.length
        let fs1 := fs.setFile file_path
          ((fs.files file_path).getD [] ++ st.history.drop st.last_appended_index)
        ⟨{st with last_appended_index := total}, fs1, [], none⟩
    else historyShow args st fs
  | _ => historyShow args st fs

/-- `get_history` (main.py lines 139-175): split the argument string on
whitespace and dispatch on the argument pattern. -/
def get_history (input : String) (st : Shell) (fs : Fs) : HRes :=
  get_history_args (pySplitWs (pyStrip input)) st fs

/-- The `builtin_commands` registry as populated by `_init_builtins`
(main.py lines 232-240): name to handler. -/
def builtin_commands (name : String) : Option (String → Shell → Fs → HRes) :=
  if name = "exit" then some exit_shell
  else if name = "echo" then some echo
  else if name = "type" then some typeOf
  else if name = "pwd" then some get_cwd
  else if name = "cd" then some change_directory
  else if name = "history" then some get_history
  else none

/-- `subprocess.run` of an external executable, a black box per the spec:
it blocks until the child exits; its writes are outside the model. -/
def run_external (_path : String) (_argv : List String) (fs : Fs) : Fs := fs

/-- `handle_command` (main.py lines 177-230): tokenize, extract
redirections, then dispatch. An empty residual command makes the
`commandArr[0]` subscript raise `IndexError`. For a builtin with
redirection targets, the files are opened (mode as extracted), the global
stream objects are swapped for them, the handler runs on the joined
argument string, and the original streams are re-assigned only by the
statements after the call — so only when the handler returns normally.
For an external command the opened files are handed to `subprocess.run`. -/
def handle_command (command : String) (st : Shell) (fs : Fs) : HRes :=
  match parse_input command with
  | .error e => ⟨st, fs, [], some e⟩
  | .ok tokens =>
  match extract_redirections tokens with
  | none => ⟨st, fs, [], some .indexError⟩
  | some r =>
  match r.command with
  | [] => ⟨st, fs, [], some .indexError⟩
  | name :: rest =>
  match builtin_commands name with
  | some handler =>
    let argstr := String.intercalate " " rest
    match r.stdout_target, r.stderr_target with
    | some so, some se =>
      (match pyOpen fs so r.stdout_mode with
       | .error e => ⟨st, fs, [], some e⟩
       | .ok fs1 =>
         match pyOpen fs1 se r.stderr_mode with
         | .error e => ⟨st, fs1, [], some e⟩
         | .ok fs2 =>
           let old_stdout := st.sys_stdout
           let old_stderr := st.sys_stderr
           let h := handler argstr {st with sys_stdout := .toFile so, sys_stderr := .toFile se} fs2
           match h.exc with
           | some _ => h
           | none => {h with shell := {h.shell with sys_stdout := old_stdout, sys_stderr := old_stderr}})
    | some so, none =>
      (match pyOpen fs so r.stdout_mode with
       | .error e => ⟨st, fs, [], some e⟩
       | .ok fs1 =>
         let old_stdout := st.sys_stdout
         let h := handler argstr {st with sys_stdout := .toFile so} fs1
         match h.exc with
         | some _ => h
         | none => {h with shell := {h.shell with sys_stdout := old_stdout}})
    | none, some se =>
      (match pyOpen fs se r.stderr_mode with
       | .error e => ⟨st, fs, [], some e⟩
       | .ok fs1 =>
         let old_stderr := st.sys_stderr
         let h := handler argstr {st with sys_stderr := .toFile se} fs1
         match h.exc with
         | some _ => h
         | none => {h with shell := {h.shell with sys_stderr := old_stderr}})
    | none, none => handler argstr st fs
  | none =>
  match find_executable fs name with
  | some executable_path =>
    (match r.stdout_target, r.stderr_target with
     | some so, some se =>
       (match pyOpen fs so r.stdout_mode with
        | .error e => ⟨st, fs, [], some e⟩
        | .ok fs1 =>
          match pyOpen fs1 se r.stderr_mode with
          | .error e => ⟨st, fs1, [], some e⟩
          | .ok fs2 => ⟨st, run_external executable_path r.command fs2, [], none⟩)
     | some so, none =>
       (match pyOpen fs so r.stdout_mode with
        | .error e => ⟨st, fs, [], some e⟩
        | .ok fs1 => ⟨st, run_external executable_path r.command fs1, [], none⟩)
     | none, some se =>
       (match pyOpen fs se r.stderr_mode with
        | .error e => ⟨st, fs, [], some e⟩
        | .ok fs1 => ⟨st, run_external executable_path r.command fs1, [], none⟩)
     | none, none => ⟨st, run_external executable_path r.command fs, [], none⟩)
  | none =>
    let r2 := pyPrint st fs (name ++ ": command not found")
    ⟨st, r2.1, r2.2, none⟩

/-- The history bookkeeping of one read-loop iteration (main.py lines
272-274): `readline.add_history(command)` only when `command.strip()` is
truthy (non-blank). -/
def loopAddHistory (command : String) (history : List String) : List String :=
  if pyStrip command ≠ "" then history ++ [command] else history

/-- One full iteration of the read loop (main.py lines 271-275): history
bookkeeping, then `handle_command`. -/
def mainStep (command : String) (st : Shell) (fs : Fs) : HRes :=
  handle_command command {st with history := loopAddHistory command st.history} fs

/-- A sample initial shell state: console streams, fresh history. -/
def shell0 : Shell :=
  ⟨"/root", "/home/user", some "/home/user/.sh_history", [], 0, 0, .console, .console⟩

/-- A sample filesystem: no PATH entries, everything openable, no files. -/
def fs0 : Fs := ⟨[], fun _ => false, fun _ => false, fun _ => false, fun _ => none⟩

/-- A filesystem on which opening `/bad/x` for writing raises `OSError`. -/
def fsBad : Fs := ⟨[], fun _ => false, fun _ => false, fun p => p == "/bad/x", fun _ => none⟩

example : (handle_command "" shell0 fs0).exc = some .indexError := by rfl
example : (handle_command "   " shell0 fs0).exc = some .indexError := by rfl
example : (handle_command "echo hi >" shell0 fs0).exc = some .indexError := by rfl
example : (handle_command "echo hi > f" shell0 fs0).shell.sys_stdout = .console := by rfl
example : (handle_command "echo hi > f" shell0 fs0).fs.files "f" = some ["hi"] := by rfl
example : (handle_command "echo hi > f" shell0 fs0).out = [] := by rfl
example : (handle_command "echo hi" shell0 fs0).out = ["hi"] := by rfl
example : (handle_command "history -w /bad/x > /tmp/o" shell0 fsBad).exc = some .osError := by rfl
example : (handle_command "history -w /bad/x > /tmp/o" shell0 fsBad).shell.sys_stdout
    = .toFile "/tmp/o" := by rfl
example : (handle_command "exit 7" shell0 fs0).exc = some (.systemExit 7) := by rfl
example : (handle_command "exit" shell0 fs0).exc = some (.systemExit 0) := by rfl
example : (handle_command "cd /nope" shell0 fs0).out
    = ["cd: /nope: No such file or directory"] := by rfl
example : (handle_command "cd /nope" shell0 fs0).shell.cwd = "/root" := by rfl
example : (mainStep "   " shell0 fs0).shell.history = [] := by rfl
example : (mainStep "echo hi" shell0 fs0).shell.history = ["echo hi"] := by rfl

/-- C1: the claim (with the spec) says an input line that tokenizes to zero
tokens is a no-op, but `handle_command` subscripts the empty residual
command (`commandArr[0]`) and raises an uncaught `IndexError`, so the read
loop does not regain control: the interpreter crashes on an empty or
all-whitespace line. -/
theorem c1_empty_input_raises_index_error :
    parse_input "" = .ok [] ∧
    parse_input "   " = .ok [] ∧
    (handle_command "" shell0 fs0).exc = some .indexError ∧
    (handle_command "   " shell0 fs0).exc = some .indexError ∧
    (handle_command "" shell0 fs0).out = [] :=
  ⟨rfl, rfl, rfl, rfl, rfl⟩

/-- C2: the claim (with the spec) says a trailing redirection operator with
no target is a reported parse error after which the read loop continues,
but `extract_redirections` evaluates `tokens[i+1]` past the end and raises
an uncaught `IndexError`: nothing is printed and the exception escapes
`handle_command`, crashing the interpreter. -/
theorem c2_dangling_redirection_raises_uncaught :
    parse_input "echo hi >" = .ok ["echo", "hi", ">"] ∧
    extract_redirections ["echo", "hi", ">"] = none ∧
    (handle_command "echo hi >" shell0 fs0).exc = some .indexError ∧
    (handle_command "echo hi >" shell0 fs0).out = [] ∧
    extract_redirections ["1>"] = none ∧
    extract_redirections [">>"] = none ∧
    extract_redirections ["1>>"] = none ∧
    extract_redirections ["2>"] = none ∧
    extract_redirections ["2>>"] = none :=
  ⟨rfl, rfl, rfl, rfl, rfl, rfl, rfl, rfl, rfl⟩

/-- C3: the claim (with the spec) says `sys.stdout`/`sys.stderr` are
restored on every exit path of a redirected builtin call, but the
restoration assignments sit after the handler call with no `try/finally`:
when the handler raises (here `history -w` on an unopenable path, an
`OSError` that is not an `exit`), the dispatch unwinds with `sys.stdout`
still pointing at the redirection file instead of the pre-dispatch
console stream. -/
theorem c3_streams_not_restored_when_handler_raises :
    shell0.sys_stdout = .console ∧
    (handle_command "history -w /bad/x > /tmp/o" shell0 fsBad).exc = some .osError ∧
    (handle_command "history -w /bad/x > /tmp/o" shell0 fsBad).shell.sys_stdout
      = .toFile "/tmp/o" :=
  ⟨rfl, rfl, rfl⟩

/-- C7: when `os.chdir` fails, the `cd` builtin prints
`cd: <path>: No such file or directory`, leaves the working directory (and
everything else) unchanged and raises nothing; `~` is expanded to the home
directory; a subsequent `pwd` prints the prior directory. -/
theorem c7_cd_failure_recovers_and_tilde_expands :
    (∀ (path : String) (st : Shell) (fs : Fs), path ≠ "~" → fs.isDir path = false →
      st.sys_stdout = .console →
      change_directory path st fs
        = ⟨st, fs, ["cd: " ++ path ++ ": No such file or directory"], none⟩) ∧
    (∀ (st : Shell) (fs : Fs), fs.isDir st.home = true →
      change_directory "~" st fs = ⟨{st with cwd := st.home}, fs, [], none⟩) ∧
    (∀ (path : String) (st : Shell) (fs : Fs), path ≠ "~" → fs.isDir path = false →
      st.sys_stdout = .console →
      (get_cwd "" (change_directory path st fs).shell fs).out = [st.cwd]) := by
  refine ⟨?_, ?_, ?_⟩
  · intro path st fs hne hdir hstd
    simp [change_directory, pyPrint, hne, hdir, hstd]
  · intro st fs hdir
    simp [change_directory, hdir]
  · intro path st fs hne hdir hstd
    simp [change_directory, get_cwd, pyPrint, hne, hdir, hstd]

/-- Witness for C7 at a concrete failing path and at `~`. -/
theorem c7_cd_failure_recovers_and_tilde_expands_witness :
    change_directory "/nope" shell0 fs0
      = ⟨shell0, fs0, ["cd: /nope: No such file or directory"], none⟩ :=
  c7_cd_failure_recovers_and_tilde_expands.1 "/nope" shell0 fs0 (by decide) rfl rfl

/-- C10: the read loop's history bookkeeping adds a line only when
`command.strip()` is non-empty, so a blank line leaves the log unchanged
and every entry the loop records has a non-blank strip. -/
theorem c10_loop_records_only_nonblank_lines :
    (∀ (line : String) (hist : List String),
      pyStrip line = "" → loopAddHistory line hist = hist) ∧
    (∀ (line : String) (hist : List String) (e : String),
      e ∈ loopAddHistory line hist → e ∈ hist ∨ pyStrip e ≠ "") := by
  constructor
  · intro line hist hblank
    simp [loopAddHistory, hblank]
  · intro line hist e hmem
    by_cases hblank : pyStrip line = ""
    · simp [loopAddHistory, hblank] at hmem
      exact Or.inl hmem
    · simp [loopAddHistory, hblank] at hmem
      rcases hmem with h | h
      · exact Or.inl h
      · subst h
        exact Or.inr hblank

/-- Witness for C10: a whitespace-only line leaves the log unchanged. -/
theorem c10_loop_records_only_nonblank_lines_witness :
    loopAddHistory "   " ["echo hi"] = ["echo hi"] :=
  c10_loop_records_only_nonblank_lines.1 "   " ["echo hi"] rfl

/-- The `-a` branch of `get_history` on an openable path, in closed form. -/
lemma get_history_a_eq (st : Shell) (fs : Fs) (path : String)
    (h : fs.openFails path = false) :
    get_history_args ["-a", path] st fs
      = ⟨{st with last_appended_index := st.history.length},
         fs.setFile path ((fs.files path).getD [] ++ st.history.drop st.last_appended_index),
         [], none⟩ := by
  simp [get_history_args, h]

/-- C6: `history -a <path>` appends exactly the entries with 1-based index
in `(last_appended_index, current_length]` (that is, the suffix
`history.drop last_appended_index`), touches no other file, advances the
watermark to the current length, and a second consecutive call appends
nothing and changes nothing. -/
theorem c6_history_incremental_append_idempotent :
    ∀ (st : Shell) (fs : Fs) (path : String), fs.openFails path = false →
      (get_history_args ["-a", path] st fs).fs.files path
          = some ((fs.files path).getD [] ++ st.history.drop st.last_appended_index) ∧
      (∀ q, q ≠ path → (get_history_args ["-a", path] st fs).fs.files q = fs.files q) ∧
      (get_history_args ["-a", path] st fs).shell.last_appended_index = st.history.length ∧
      (get_history_args ["-a", path] st fs).shell.history = st.history ∧
      (get_history_args ["-a", path] st fs).exc = none ∧
      (get_history_args ["-a", path]
          (get_history_args ["-a", path] st fs).shell
          (get_history_args ["-a", path] st fs).fs).fs.files path
        = (get_history_args ["-a", path] st fs).fs.files path ∧
      (get_history_args ["-a", path]
          (get_history_args ["-a", path] st fs).shell
          (get_history_args ["-a", path] st fs).fs).shell
        = (get_history_args ["-a", path] st fs).shell := by
  intro st fs path h
  have h2 : (fs.setFile path
      ((fs.files path).getD [] ++ st.history.drop st.last_appended_index)).openFails path
      = false := h
  rw [get_history_a_eq st fs path h]
  refine ⟨?_, ?_, rfl, rfl, rfl, ?_, ?_⟩
  · simp [Fs.setFile]
  · intro q hq
    simp [Fs.setFile, hq]
  · rw [get_history_a_eq _ _ path h2]
    simp [Fs.setFile]
  · rw [get_history_a_eq _ _ path h2]

/-- Witness for C6: with history `[a, b, c]` and watermark 1, `-a` appends
exactly `[b, c]`. -/
theorem c6_history_incremental_append_idempotent_witness :
    (get_history_args ["-a", "h"]
        ⟨"/", "/", none, ["a", "b", "c"], 1, 0, .console, .console⟩ fs0).fs.files "h"
      = some ["b", "c"] :=
  (c6_history_incremental_append_idempotent
    ⟨"/", "/", none, ["a", "b", "c"], 1, 0, .console, .console⟩ fs0 "h" rfl).1

/-- All characters produced by `natReprAux` are ASCII digits. -/
lemma natReprAux_all_digits :
    ∀ (f n : Nat), n < f → ∀ c ∈ natReprAux f n, isAsciiDigit c = true := by
  intro f
  induction f with
  | zero => intro n hn; omega
  | succ f ih =>
    intro n hn c hc
    unfold natReprAux at hc
    by_cases h10 : n < 10
    · simp [h10] at hc
      subst hc
      interval_cases n <;> rfl
    · simp [h10] at hc
      rcases hc with hc | hc
      · have hdiv : n / 10 < n := Nat.div_lt_self (by omega) (by omega)
        exact ih (n / 10) (by omega) c hc
      · subst hc
        have hm : n % 10 < 10 := Nat.mod_lt n (by omega)
        set m := n % 10 with hmdef
        clear_value m
        interval_cases m <;> rfl

/-- `natReprAux` never produces the empty digit list when fueled. -/
lemma natReprAux_ne_nil (f n : Nat) (h : n < f) : natReprAux f n ≠ [] := by
  cases f with
  | zero => omega
  | succ f =>
    unfold natReprAux
    by_cases h10 : n < 10 <;> simp [h10]

/-- Appending one digit multiplies the accumulated value by ten. -/
lemma natOfDigits_append (l : List Char) (c : Char) :
    natOfDigits (l ++ [c]) = 10 * natOfDigits l + digitVal c := by
  simp [natOfDigits, List.foldl_append]

/-- Reading back the decimal numeral of `n` yields `n`. -/
lemma natOfDigits_natReprAux : ∀ (f n : Nat), n < f → natOfDigits (natReprAux f n) = n := by
  intro f
  induction f with
  | zero => intro n hn; omega
  | succ f ih =>
    intro n hn
    unfold natReprAux
    by_cases h10 : n < 10
    · have hdig : digitVal (decDigit n) = n := by interval_cases n <;> rfl
      rw [if_pos h10]
      simp [natOfDigits, hdig]
    · have hdiv : n / 10 < n := Nat.div_lt_self (by omega) (by omega)
      rw [if_neg h10, natOfDigits_append, ih (n / 10) (by omega)]
      have hm : n % 10 < 10 := Nat.mod_lt n (by omega)
      have hdig : digitVal (decDigit (n % 10)) = n % 10 := by
        set m := n % 10 with hmdef
        clear_value m
        interval_cases m <;> rfl
      rw [hdig]
      omega

/-- The decimal numeral of any natural number passes `str.isdigit`. -/
lemma pyIsdigitStr_natRepr (n : Nat) : pyIsdigitStr (natRepr n) = true := by
  have h1 := natReprAux_ne_nil (n + 1) n (by omega)
  have h2 := natReprAux_all_digits (n + 1) n (by omega)
  unfold pyIsdigitStr natRepr
  cases hl : natReprAux (n + 1) n with
  | nil => exact absurd hl h1
  | cons c rest =>
    rw [hl] at h2
    simp [List.all_eq_true]
    exact ⟨h2 c (by simp), fun d hd => h2 d (by simp [hd])⟩

/-- Python `int` inverts the decimal numeral. -/
lemma pyInt_natRepr (n : Nat) : natOfDigits (natRepr n).data = n := by
  unfold natRepr
  exact natOfDigits_natReprAux (n + 1) n (by omega)

/-- The history flush of `exit_shell` succeeds when the configured history
file (if any) is openable. -/
lemma write_to_history_file_ok (st : Shell) (fs : Fs)
    (h : ∀ hf, st.histfile = some hf → fs.openFails hf = false) :
    ∃ fs1, write_to_history_file st fs = .ok fs1 := by
  unfold write_to_history_file
  cases hh : st.histfile with
  | none => exact ⟨fs, rfl⟩
  | some hf =>
    have hopen := h hf hh
    by_cases hn : st.history.length - st.initial_history_length > 0
    · simp [hn, hopen]
    · simp [hn]

/-- C5: `exit` first flushes history to the configured history file (the
result's filesystem is exactly the flushed one), always terminates the
process, with status `N` when the stripped argument is the decimal numeral
of `N`, and with status 0 when the stripped argument is not a digit string
(including the absent-argument case, the empty string). -/
theorem c5_exit_flushes_then_terminates_with_status :
    ∀ (input : String) (st : Shell) (fs : Fs),
      (∀ hf, st.histfile = some hf → fs.openFails hf = false) →
      write_to_history_file st fs = .ok (exit_shell input st fs).fs ∧
      (exit_shell input st fs).exc ≠ none ∧
      (∀ n : Nat, pyStrip input = natRepr n →
        (exit_shell input st fs).exc = some (.systemExit n)) ∧
      (pyIsdigitStr (pyStrip input) = false →
        (exit_shell input st fs).exc = some (.systemExit 0)) := by
  intro input st fs h
  obtain ⟨fs1, hw⟩ := write_to_history_file_ok st fs h
  by_cases hd : pyIsdigitStr (pyStrip input) = true
  · have he : exit_shell input st fs = ⟨st, fs1, [], some (.systemExit (pyInt input))⟩ := by
      unfold exit_shell
      rw [hw]
      exact if_pos hd
    refine ⟨by rw [he]; exact hw, by simp [he], ?_, ?_⟩
    · intro n hn
      have hv : pyInt input = n := by
        unfold pyInt
        rw [hn]
        exact pyInt_natRepr n
      rw [he, hv]
    · intro hfalse
      rw [hd] at hfalse
      exact absurd hfalse (by simp)
  · have he : exit_shell input st fs = ⟨st, fs1, [], some (.systemExit 0)⟩ := by
      unfold exit_shell
      rw [hw]
      exact if_neg hd
    refine ⟨by rw [he]; exact hw, by simp [he], ?_, fun _ => by rw [he]⟩
    intro n hn
    have hall := pyIsdigitStr_natRepr n
    rw [← hn] at hall
    exact absurd hall hd

/-- In comment-skipping state the lexer discards every character up to a
newline, so a newline-free remainder contributes nothing. -/
lemma shlexRun_comment_no_newline :
    ∀ (l : List Char), (∀ c ∈ l, c ≠ '\n') →
      ∀ (q : Bool) (tok : List Char) (acc : List String),
        shlexRun l .comment q tok acc = .ok acc := by
  intro l
  induction l with
  | nil => intro _ q tok acc; rfl
  | cons c rest ih =>
    intro h q tok acc
    have hc : ¬(c = '\n') := h c (by simp)
    simp only [shlexRun, if_neg hc]
    exact ih (fun d hd => h d (by simp [hd])) false [] acc

/-- C8: an unquoted `#` starts a comment: `echo a #b` tokenizes to
`[echo, a]`, and more generally everything after `echo a #` is discarded
for any newline-free remainder of the line. -/
theorem c8_unquoted_hash_starts_comment :
    parse_input "echo a #b" = .ok ["echo", "a"] ∧
    (∀ s : String, (∀ c ∈ s.data, c ≠ '\n') →
      parse_input ("echo a #" ++ s) = .ok ["echo", "a"]) := by
  constructor
  · rfl
  · intro s h
    show shlexRun ("echo a #" ++ s).data .ws false [] [] = .ok ["echo", "a"]
    have hdata : ("echo a #" ++ s).data = "echo a #".data ++ s.data := by
      cases s
      rfl
    rw [hdata]
    have hpre : shlexRun ("echo a #".data ++ s.data) .ws false [] []
        = shlexRun s.data .comment false [] ["echo", "a"] := rfl
    rw [hpre]
    exact shlexRun_comment_no_newline s.data h false [] ["echo", "a"]

/-- Witness for C8: the trailing text `b c > f` after `#` is discarded. -/
theorem c8_unquoted_hash_starts_comment_witness :
    parse_input ("echo a #" ++ "b c > f") = .ok ["echo", "a"] :=
  c8_unquoted_hash_starts_comment.2 "b c > f" (by decide)

/-- The six redirection operator tokens recognized by
`extract_redirections`. -/
def redirOps : List String := [">", "1>", ">>", "1>>", "2>", "2>>"]

/-- Every token of the residual command of a successful extraction comes
from the initial accumulator or is not an operator token. -/
lemma extractGo_command_mem :
    ∀ (n : Nat) (ts : List String), ts.length ≤ n →
      ∀ (acc : List String) (so : Option String) (sm : String) (se : Option String)
        (sem : String) (r : Redir),
        extractGo ts acc so sm se sem = some r →
        ∀ x ∈ r.command, x ∈ acc ∨ x ∉ redirOps := by
  intro n
  induction n with
  | zero =>
    intro ts hts acc so sm se sem r hr x hx
    have hnil : ts = [] := List.length_eq_zero.mp (Nat.le_zero.mp hts)
    subst hnil
    simp only [extractGo, Option.some.injEq] at hr
    subst hr
    exact Or.inl hx
  | succ n ih =>
    intro ts hts acc so sm se sem r hr x hx
    match ts with
    | [] =>
      simp only [extractGo, Option.some.injEq] at hr
      subst hr
      exact Or.inl hx
    | t :: rest =>
      simp only [List.length_cons, Nat.add_le_add_iff_right] at hts
      by_cases h1 : t ∈ ([">", "1>"] : List String)
      · cases rest with
        | nil =>
          rw [show extractGo [t] acc so sm se sem = none from by simp [extractGo, h1]] at hr
          exact absurd hr (by simp)
        | cons tgt rest2 =>
          rw [show extractGo (t :: tgt :: rest2) acc so sm se sem
              = extractGo rest2 acc (some tgt) "w" se sem from by simp [extractGo, h1]] at hr
          exact ih rest2 (by simp at hts; omega) acc (some tgt) "w" se sem r hr x hx
      · by_cases h2 : t = "2>"
        · cases rest with
          | nil =>
            rw [show extractGo [t] acc so sm se sem = none from by
              simp [extractGo, h1, h2]] at hr
            exact absurd hr (by simp)
          | cons tgt rest2 =>
            rw [show extractGo (t :: tgt :: rest2) acc so sm se sem
                = extractGo rest2 acc so sm (some tgt) "w" from by
              simp [extractGo, h1, h2]] at hr
            exact ih rest2 (by simp at hts; omega) acc so sm (some tgt) "w" r hr x hx
        · by_cases h3 : t ∈ ([">>", "1>>"] : List String)
          · cases rest with
            | nil =>
              rw [show extractGo [t] acc so sm se sem = none from by
                simp [extractGo, h1, h2, h3]] at hr
              exact absurd hr (by simp)
            | cons tgt rest2 =>
              rw [show extractGo (t :: tgt :: rest2) acc so sm se sem
                  = extractGo rest2 acc (some tgt) "a" se sem from by
                simp [extractGo, h1, h2, h3]] at hr
              exact ih rest2 (by simp at hts; omega) acc (some tgt) "a" se sem r hr x hx
          · by_cases h4 : t = "2>>"
            · cases rest with
              | nil =>
                rw [show extractGo [t] acc so sm se sem = none from by
                  simp [extractGo, h1, h2, h3, h4]] at hr
                exact absurd hr (by simp)
              | cons tgt rest2 =>
                rw [show extractGo (t :: tgt :: rest2) acc so sm se sem
                    = extractGo rest2 acc so sm (some tgt) "a" from by
                  simp [extractGo, h1, h2, h3, h4]] at hr
                exact ih rest2 (by simp at hts; omega) acc so sm (some tgt) "a" r hr x hx
            · have hstep : extractGo (t :: rest) acc so sm se sem
                  = extractGo rest (acc ++ [t]) so sm se sem := by
                cases rest with
                | nil => simp [extractGo, h1, h2, h3, h4]
                | cons c2 rest2 => simp [extractGo, h1, h2, h3, h4]
              rw [hstep] at hr
              rcases ih rest hts (acc ++ [t]) so sm se sem r hr x hx with hm | hm
              · rcases List.mem_append.mp hm with hm2 | hm2
                · exact Or.inl hm2
                · have hxt : x = t := by simpa using hm2
                  subst hxt
                  refine Or.inr ?_
                  intro hxops
                  simp only [redirOps, List.mem_cons, List.not_mem_nil, or_false] at hxops
                  rcases hxops with rfl | rfl | rfl | rfl | rfl | rfl
                  · exact h1 (by simp)
                  · exact h1 (by simp)
                  · exact h3 (by simp)
                  · exact h3 (by simp)
                  · exact h2 rfl
                  · exact h4 rfl
              · exact Or.inr hm

/-- Step equation: a stdout-truncate operator consumes the next token. -/
lemma extractGo_cons_op1 (t tgt : String) (rest2 acc : List String) (so : Option String)
    (sm : String) (se : Option String) (sem : String) (h1 : t ∈ ([">", "1>"] : List String)) :
    extractGo (t :: tgt :: rest2) acc so sm se sem
      = extractGo rest2 acc (some tgt) "w" se sem := by
  simp [extractGo, h1]

/-- Step equation: a final stdout-truncate operator has no target. -/
lemma extractGo_cons_op1_nil (t : String) (acc : List String) (so : Option String)
    (sm : String) (se : Option String) (sem : String) (h1 : t ∈ ([">", "1>"] : List String)) :
    extractGo [t] acc so sm se sem = none := by
  simp [extractGo, h1]

/-- Step equation: `2>` consumes the next token. -/
lemma extractGo_cons_op2 (t tgt : String) (rest2 acc : List String) (so : Option String)
    (sm : String) (se : Option String) (sem : String) (h1 : t ∉ ([">", "1>"] : List String))
    (h2 : t = "2>") :
    extractGo (t :: tgt :: rest2) acc so sm se sem
      = extractGo rest2 acc so sm (some tgt) "w" := by
  simp [extractGo, h1, h2]

/-- Step equation: a final `2>` has no target. -/
lemma extractGo_cons_op2_nil (t : String) (acc : List String) (so : Option String)
    (sm : String) (se : Option String) (sem : String) (h1 : t ∉ ([">", "1>"] : List String))
    (h2 : t = "2>") :
    extractGo [t] acc so sm se sem = none := by
  simp [extractGo, h1, h2]

/-- Step equation: a stdout-append operator consumes the next token. -/
lemma extractGo_cons_op3 (t tgt : String) (rest2 acc : List String) (so : Option String)
    (sm : String) (se : Option String) (sem : String) (h1 : t ∉ ([">", "1>"] : List String))
    (h2 : t ≠ "2>") (h3 : t ∈ ([">>", "1>>"] : List String)) :
    extractGo (t :: tgt :: rest2) acc so sm se sem
      = extractGo rest2 acc (some tgt) "a" se sem := by
  simp [extractGo, h1, h2, h3]

/-- Step equation: a final stdout-append operator has no target. -/
lemma extractGo_cons_op3_nil (t : String) (acc : List String) (so : Option String)
    (sm : String) (se : Option String) (sem : String) (h1 : t ∉ ([">", "1>"] : List String))
    (h2 : t ≠ "2>") (h3 : t ∈ ([">>", "1>>"] : List String)) :
    extractGo [t] acc so sm se sem = none := by
  simp [extractGo, h1, h2, h3]

/-- Step equation: `2>>` consumes the next token. -/
lemma extractGo_cons_op4 (t tgt : String) (rest2 acc : List String) (so : Option String)
    (sm : String) (se : Option String) (sem : String) (h1 : t ∉ ([">", "1>"] : List String))
    (h2 : t ≠ "2>") (h3 : t ∉ ([">>", "1>>"] : List String)) (h4 : t = "2>>") :
    extractGo (t :: tgt :: rest2) acc so sm se sem
      = extractGo rest2 acc so sm (some tgt) "a" := by
  simp [extractGo, h1, h2, h3, h4]

/-- Step equation: a final `2>>` has no target. -/
lemma extractGo_cons_op4_nil (t : String) (acc : List String) (so : Option String)
    (sm : String) (se : Option String) (sem : String) (h1 : t ∉ ([">", "1>"] : List String))
    (h2 : t ≠ "2>") (h3 : t ∉ ([">>", "1>>"] : List String)) (h4 : t = "2>>") :
    extractGo [t] acc so sm se sem = none := by
  simp [extractGo, h1, h2, h3, h4]

/-- Step equation: a non-operator token is appended to the command. -/
lemma extractGo_cons_plain (t : String) (rest acc : List String) (so : Option String)
    (sm : String) (se : Option String) (sem : String) (h1 : t ∉ ([">", "1>"] : List String))
    (h2 : t ≠ "2>") (h3 : t ∉ ([">>", "1>>"] : List String)) (h4 : t ≠ "2>>") :
    extractGo (t :: rest) acc so sm se sem = extractGo rest (acc ++ [t]) so sm se sem := by
  cases rest with
  | nil => simp [extractGo, h1, h2, h3, h4]
  | cons c2 rest2 => simp [extractGo, h1, h2, h3, h4]

/-- Sequential composition of two extraction results: commands concatenate
and, for each stream, the right (later) result wins whenever it redirects
that stream at all, matching left-to-right overwriting. -/
def combineRedir (ra rb : Redir) : Redir :=
  ⟨ra.command ++ rb.command,
   if rb.stdout_target = none then ra.stdout_target else rb.stdout_target,
   if rb.stdout_target = none then ra.stdout_mode else rb.stdout_mode,
   if rb.stderr_target = none then ra.stderr_target else rb.stderr_target,
   if rb.stderr_target = none then ra.stderr_mode else rb.stderr_mode⟩

/-- `combineRedir` is associative. -/
lemma combineRedir_assoc (x y z : Redir) :
    combineRedir x (combineRedir y z) = combineRedir (combineRedir x y) z := by
  rcases hzo : z.stdout_target with _ | v <;> rcases hyo : y.stdout_target with _ | w <;>
    rcases hze : z.stderr_target with _ | v2 <;> rcases hye : y.stderr_target with _ | w2 <;>
    simp [combineRedir, hzo, hyo, hze, hye]

/-- The empty extraction result is a right identity for `combineRedir`. -/
lemma combineRedir_id (x : Redir) : combineRedir x ⟨[], none, "w", none, "w"⟩ = x := by
  simp [combineRedir]

/-- Running the scan loop from an arbitrary accumulator and stream state
equals running it from the initial state and combining: the residual
command is appended after the accumulator, and each stream keeps the
initial value only when the scanned tokens never redirect it. -/
lemma extractGo_acc_general :
    ∀ (n : Nat) (b : List String), b.length ≤ n →
      ∀ (acc : List String) (so : Option String) (sm : String) (se : Option String)
        (sem : String),
        extractGo b acc so sm se sem
          = (extractGo b [] none "w" none "w").map
              (fun r0 => combineRedir ⟨acc, so, sm, se, sem⟩ r0) := by
  intro n
  induction n with
  | zero =>
    intro b hb acc so sm se sem
    have hnil : b = [] := List.length_eq_zero.mp (Nat.le_zero.mp hb)
    subst hnil
    simp [extractGo, combineRedir_id]
  | succ n ih =>
    intro b hb acc so sm se sem
    match b with
    | [] => simp [extractGo, combineRedir_id]
    | t :: rest =>
      simp only [List.length_cons, Nat.add_le_add_iff_right] at hb
      by_cases h1 : t ∈ ([">", "1>"] : List String)
      · cases rest with
        | nil =>
          rw [extractGo_cons_op1_nil t acc so sm se sem h1,
              extractGo_cons_op1_nil t [] none "w" none "w" h1]
          rfl
        | cons tgt rest2 =>
          have hlen : rest2.length ≤ n := by simp at hb; omega
          rw [extractGo_cons_op1 t tgt rest2 acc so sm se sem h1,
              extractGo_cons_op1 t tgt rest2 [] none "w" none "w" h1,
              ih rest2 hlen acc (some tgt) "w" se sem,
              ih rest2 hlen [] (some tgt) "w" none "w",
              Option.map_map]
          congr 1
          funext r0
          simp only [Function.comp_apply]
          rw [combineRedir_assoc]
          congr 1
          simp [combineRedir]
      · by_cases h2 : t = "2>"
        · cases rest with
          | nil =>
            rw [extractGo_cons_op2_nil t acc so sm se sem h1 h2,
                extractGo_cons_op2_nil t [] none "w" none "w" h1 h2]
            rfl
          | cons tgt rest2 =>
            have hlen : rest2.length ≤ n := by simp at hb; omega
            rw [extractGo_cons_op2 t tgt rest2 acc so sm se sem h1 h2,
                extractGo_cons_op2 t tgt rest2 [] none "w" none "w" h1 h2,
                ih rest2 hlen acc so sm (some tgt) "w",
                ih rest2 hlen [] none "w" (some tgt) "w",
                Option.map_map]
            congr 1
            funext r0
            simp only [Function.comp_apply]
            rw [combineRedir_assoc]
            congr 1
            simp [combineRedir]
        · by_cases h3 : t ∈ ([">>", "1>>"] : List String)
          · cases rest with
            | nil =>
              rw [extractGo_cons_op3_nil t acc so sm se sem h1 h2 h3,
                  extractGo_cons_op3_nil t [] none "w" none "w" h1 h2 h3]
              rfl
            | cons tgt rest2 =>
              have hlen : rest2.length ≤ n := by simp at hb; omega
              rw [extractGo_cons_op3 t tgt rest2 acc so sm se sem h1 h2 h3,
                  extractGo_cons_op3 t tgt rest2 [] none "w" none "w" h1 h2 h3,
                  ih rest2 hlen acc (some tgt) "a" se sem,
                  ih rest2 hlen [] (some tgt) "a" none "w",
                  Option.map_map]
              congr 1
              funext r0
              simp only [Function.comp_apply]
              rw [combineRedir_assoc]
              congr 1
              simp [combineRedir]
          · by_cases h4 : t = "2>>"
            · cases rest with
              | nil =>
                rw [extractGo_cons_op4_nil t acc so sm se sem h1 h2 h3 h4,
                    extractGo_cons_op4_nil t [] none "w" none "w" h1 h2 h3 h4]
                rfl
              | cons tgt rest2 =>
                have hlen : rest2.length ≤ n := by simp at hb; omega
                rw [extractGo_cons_op4 t tgt rest2 acc so sm se sem h1 h2 h3 h4,
                    extractGo_cons_op4 t tgt rest2 [] none "w" none "w" h1 h2 h3 h4,
                    ih rest2 hlen acc so sm (some tgt) "a",
                    ih rest2 hlen [] none "w" (some tgt) "a",
                    Option.map_map]
                congr 1
                funext r0
                simp only [Function.comp_apply]
                rw [combineRedir_assoc]
                congr 1
                simp [combineRedir]
            · rw [extractGo_cons_plain t rest acc so sm se sem h1 h2 h3 h4,
                  extractGo_cons_plain t rest [] none "w" none "w" h1 h2 h3 h4,
                  List.nil_append,
                  ih rest hb (acc ++ [t]) so sm se sem,
                  ih rest hb [t] none "w" none "w",
                  Option.map_map]
              congr 1
              funext r0
              simp only [Function.comp_apply]
              rw [combineRedir_assoc]
              congr 1

/-- If a prefix of the token stream extracts successfully, scanning the
whole stream first reproduces that extraction and then continues on the
rest from the reached state. -/
lemma extractGo_append :
    ∀ (n : Nat) (a : List String), a.length ≤ n →
      ∀ (b acc : List String) (so : Option String) (sm : String) (se : Option String)
        (sem : String) (r : Redir),
        extractGo a acc so sm se sem = some r →
        extractGo (a ++ b) acc so sm se sem
          = extractGo b r.command r.stdout_target r.stdout_mode r.stderr_target
              r.stderr_mode := by
  intro n
  induction n with
  | zero =>
    intro a ha b acc so sm se sem r hr
    have hnil : a = [] := List.length_eq_zero.mp (Nat.le_zero.mp ha)
    subst hnil
    simp only [extractGo, Option.some.injEq] at hr
    subst hr
    rfl
  | succ n ih =>
    intro a ha b acc so sm se sem r hr
    match a with
    | [] =>
      simp only [extractGo, Option.some.injEq] at hr
      subst hr
      rfl
    | t :: rest =>
      simp only [List.length_cons, Nat.add_le_add_iff_right] at ha
      by_cases h1 : t ∈ ([">", "1>"] : List String)
      · cases rest with
        | nil =>
          rw [extractGo_cons_op1_nil t acc so sm se sem h1] at hr
          exact absurd hr (by simp)
        | cons tgt rest2 =>
          have hlen : rest2.length ≤ n := by simp at ha; omega
          rw [extractGo_cons_op1 t tgt rest2 acc so sm se sem h1] at hr
          rw [List.cons_append, List.cons_append,
              extractGo_cons_op1 t tgt (rest2 ++ b) acc so sm se sem h1]
          exact ih rest2 hlen b acc (some tgt) "w" se sem r hr
      · by_cases h2 : t = "2>"
        · cases rest with
          | nil =>
            rw [extractGo_cons_op2_nil t acc so sm se sem h1 h2] at hr
            exact absurd hr (by simp)
          | cons tgt rest2 =>
            have hlen : rest2.length ≤ n := by simp at ha; omega
            rw [extractGo_cons_op2 t tgt rest2 acc so sm se sem h1 h2] at hr
            rw [List.cons_append, List.cons_append,
                extractGo_cons_op2 t tgt (rest2 ++ b) acc so sm se sem h1 h2]
            exact ih rest2 hlen b acc so sm (some tgt) "w" r hr
        · by_cases h3 : t ∈ ([">>", "1>>"] : List String)
          · cases rest with
            | nil =>
              rw [extractGo_cons_op3_nil t acc so sm se sem h1 h2 h3] at hr
              exact absurd hr (by simp)
            | cons tgt rest2 =>
              have hlen : rest2.length ≤ n := by simp at ha; omega
              rw [extractGo_cons_op3 t tgt rest2 acc so sm se sem h1 h2 h3] at hr
              rw [List.cons_append, List.cons_append,
                  extractGo_cons_op3 t tgt (rest2 ++ b) acc so sm se sem h1 h2 h3]
              exact ih rest2 hlen b acc (some tgt) "a" se sem r hr
          · by_cases h4 : t = "2>>"
            · cases rest with
              | nil =>
                rw [extractGo_cons_op4_nil t acc so sm se sem h1 h2 h3 h4] at hr
                exact absurd hr (by simp)
              | cons tgt rest2 =>
                have hlen : rest2.length ≤ n := by simp at ha; omega
                rw [extractGo_cons_op4 t tgt rest2 acc so sm se sem h1 h2 h3 h4] at hr
                rw [List.cons_append, List.cons_append,
                    extractGo_cons_op4 t tgt (rest2 ++ b) acc so sm se sem h1 h2 h3 h4]
                exact ih rest2 hlen b acc so sm (some tgt) "a" r hr
            · rw [extractGo_cons_plain t rest acc so sm se sem h1 h2 h3 h4] at hr
              rw [List.cons_append,
                  extractGo_cons_plain t (rest ++ b) acc so sm se sem h1 h2 h3 h4]
              exact ih rest ha b (acc ++ [t]) so sm se sem r hr

/-- C4: redirection extraction composes over concatenation of token
sequences — the residual commands concatenate in order (so operators are
removed together with exactly their one target token wherever they occur,
and the remaining tokens keep their relative order), and for each stream
the later part wins whenever it redirects that stream (last occurrence
wins). Each operator-plus-target pair extracts to an empty command with
that target, and the two orderings `echo hi > out.txt` and
`> out.txt echo hi` both yield command `[echo, hi]` with stdout target
`out.txt` in truncate mode. -/
theorem c4_extraction_composes_order_independent_last_wins :
    (∀ (a b : List String) (ra rb : Redir),
      extract_redirections a = some ra → extract_redirections b = some rb →
      extract_redirections (a ++ b) = some (combineRedir ra rb)) ∧
    (∀ t : String, extract_redirections [">", t] = some ⟨[], some t, "w", none, "w"⟩) ∧
    (∀ t : String, extract_redirections ["1>", t] = some ⟨[], some t, "w", none, "w"⟩) ∧
    (∀ t : String, extract_redirections [">>", t] = some ⟨[], some t, "a", none, "w"⟩) ∧
    (∀ t : String, extract_redirections ["1>>", t] = some ⟨[], some t, "a", none, "w"⟩) ∧
    (∀ t : String, extract_redirections ["2>", t] = some ⟨[], none, "w", some t, "w"⟩) ∧
    (∀ t : String, extract_redirections ["2>>", t] = some ⟨[], none, "w", some t, "a"⟩) ∧
    parse_input "echo hi > out.txt" = .ok ["echo", "hi", ">", "out.txt"] ∧
    extract_redirections ["echo", "hi", ">", "out.txt"]
      = some ⟨["echo", "hi"], some "out.txt", "w", none, "w"⟩ ∧
    parse_input "> out.txt echo hi" = .ok [">", "out.txt", "echo", "hi"] ∧
    extract_redirections [">", "out.txt", "echo", "hi"]
      = some ⟨["echo", "hi"], some "out.txt", "w", none, "w"⟩ := by
  refine ⟨?_, fun t => rfl, fun t => rfl, fun t => rfl, fun t => rfl, fun t => rfl,
    fun t => rfl, rfl, rfl, rfl, rfl⟩
  intro a b ra rb ha hb
  unfold extract_redirections at ha hb ⊢
  rw [extractGo_append a.length a le_rfl b [] none "w" none "w" ra ha,
      extractGo_acc_general b.length b le_rfl ra.command ra.stdout_target ra.stdout_mode
        ra.stderr_target ra.stderr_mode,
      hb]
  rfl

/-- Witness for C4: composing `[echo, hi]` with `[>, out.txt]` yields the
combined extraction. -/
theorem c4_extraction_composes_order_independent_last_wins_witness :
    extract_redirections (["echo", "hi"] ++ [">", "out.txt"])
      = some (combineRedir ⟨["echo", "hi"], none, "w", none, "w"⟩
          ⟨[], some "out.txt", "w", none, "w"⟩) :=
  c4_extraction_composes_order_independent_last_wins.1 ["echo", "hi"] [">", "out.txt"]
    ⟨["echo", "hi"], none, "w", none, "w"⟩ ⟨[], some "out.txt", "w", none, "w"⟩ rfl rfl

/-- C9: quotes are stripped before redirection extraction, so a quoted
`'>'` still acts as a redirection operator (`echo '>' f` becomes command
`[echo]` with stdout target `f`), and no successfully extracted residual
command ever contains any of the six operator tokens. -/
theorem c9_quoting_cannot_protect_operators :
    parse_input ("echo " ++ String.mk [squoteChar, '>', squoteChar] ++ " f")
        = .ok ["echo", ">", "f"] ∧
    extract_redirections ["echo", ">", "f"] = some ⟨["echo"], some "f", "w", none, "w"⟩ ∧
    (∀ (ts : List String) (r : Redir), extract_redirections ts = some r →
      ∀ op ∈ redirOps, op ∉ r.command) := by
  refine ⟨rfl, rfl, ?_⟩
  intro ts r hr op hop hmem
  rcases extractGo_command_mem ts.length ts le_rfl [] none "w" none "w" r hr op hmem with h | h
  · simp at h
  · exact h hop

/-- Witness for C9: the residual command of `echo > f` does not contain
the operator `>`. -/
theorem c9_quoting_cannot_protect_operators_witness :
    ¬((">" : String) ∈ (Redir.mk ["echo"] (some "f") "w" none "w").command) :=
  c9_quoting_cannot_protect_operators.2.2 ["echo", ">", "f"]
    ⟨["echo"], some "f", "w", none, "w"⟩ rfl ">" (by decide)

/-- Witness for C5: `exit 42` on a state with one unflushed entry exits
with status 42. -/
theorem c5_exit_flushes_then_terminates_with_status_witness :
    (exit_shell "42" ⟨"/", "/", some "h", ["a", "b"], 0, 1, .console, .console⟩ fs0).exc
      = some (.systemExit 42) :=
  (c5_exit_flushes_then_terminates_with_status "42"
      ⟨"/", "/", some "h", ["a", "b"], 0, 1, .console, .console⟩ fs0
      (fun _ _ => rfl)).2.2.1 42 (by rfl)
